import Mathlib

/-!
# Verification of the franchise-directory web application

Shallow embedding of the client-side logic of the repository
(React + Supabase application): featured-ad purchase, franchisor login,
lead status transitions, franchise create/edit persistence, category
selection and admin approvals.  Each definition mirrors the corresponding
source function; theorems settle the specification's claims about them.
-/

namespace FranchiseApp

/-! ## Calendar model for the JavaScript `Date` mutators

`handlePaymentConfirm` (src/src/pages/franchisor/Franchises.tsx) computes
the end date of a featured ad with `endDate.setDate(endDate.getDate() + 7)`
(resp. `+ 14`) and `endDate.setMonth(endDate.getMonth() + 1)` (resp. `+ 6`).
We model the relevant fragment of the ECMAScript `Date` semantics on civil
dates: `setDate`/`setMonth` write a field and re-normalise the triple
(year, 0-based month, 1-based day), letting an out-of-range day overflow
into the following months. -/

def isLeap (y : Nat) : Bool := (y % 4 == 0 && y % 100 != 0) || y % 400 == 0

/-- Length of 0-based month `m` of year `y` (ECMAScript month numbering:
0 = January, ..., 11 = December). -/
def daysInMonth (y m : Nat) : Nat :=
  match m with
  | 0 => 31
  | 1 => if isLeap y then 29 else 28
  | 2 => 31
  | 3 => 30
  | 4 => 31
  | 5 => 30
  | 6 => 31
  | 7 => 31
  | 8 => 30
  | 9 => 31
  | 10 => 30
  | _ => 31

/-- A civil date as exposed by `Date.getFullYear`, `getMonth`, `getDate`. -/
structure JSDate where
  year : Nat
  month : Nat
  day : Nat
deriving Repr, DecidableEq

/-- The triple is an actual calendar date. -/
def validDate (dt : JSDate) : Prop :=
  dt.month < 12 ∧ 1 ≤ dt.day ∧ dt.day ≤ daysInMonth dt.year dt.month

instance (dt : JSDate) : Decidable (validDate dt) := by
  unfold validDate; infer_instance

/-- ECMAScript date normalisation: reduce the month field modulo 12 with a
year carry, then let the day overflow into following months.  This is the
semantics of writing an out-of-range field with `setDate`/`setMonth`. -/
def normDate (y m d : Nat) : JSDate :=
  let y' := y + m / 12
  let m' := m % 12
  if d ≤ daysInMonth y' m' then ⟨y', m', d⟩
  else normDate y' (m' + 1) (d - daysInMonth y' m')
termination_by d
decreasing_by
  have : 0 < daysInMonth (y + m / 12) (m % 12) := by
    unfold daysInMonth; split <;> first | decide | (split <;> decide)
  omega

/-- Model of `dt.setDate(n)` for `n ≥ 1`. -/
def jsSetDate (dt : JSDate) (n : Nat) : JSDate := normDate dt.year dt.month n

/-- Model of `dt.setMonth(m)`. -/
def jsSetMonth (dt : JSDate) (m : Nat) : JSDate := normDate dt.year m dt.day

def daysInYear (y : Nat) : Nat := if isLeap y then 366 else 365

/-- Days in all years before `y`. -/
def daysUpToYear : Nat → Nat
  | 0 => 0
  | y + 1 => daysUpToYear y + daysInYear y

/-- Days in the months of year `y` strictly before month `m`. -/
def monthPrefix (y : Nat) : Nat → Nat
  | 0 => 0
  | m + 1 => monthPrefix y m + daysInMonth y m

/-- Absolute day number of a civil date (days since year 0, January 1). -/
def toDays (dt : JSDate) : Nat :=
  daysUpToYear dt.year + monthPrefix dt.year dt.month + (dt.day - 1)

/-! ## Featured-ad purchase (`handlePaymentConfirm`, Franchises.tsx) -/

/-- The `interface PricingTier` of Franchises.tsx (price is a number; the
pricing table stores amounts such as 49.99, which we model at cent
precision as integers — only equality of prices matters here). -/
structure PricingTier where
  duration : String
  price : Int
deriving Repr, DecidableEq

/-- The row passed to `supabase.from('featured_ads').insert({...})` by
`handlePaymentConfirm`. -/
structure FeaturedAdInsert where
  franchise_id : String
  amount : Int
  start_date : JSDate
  end_date : JSDate
  status : String
  payment_status : String
deriving Repr, DecidableEq

/-- The `switch (selectedDuration)` block of `handlePaymentConfirm`:
`endDate` starts as a copy of `now` and is mutated per case; there is no
`default` branch, so an unrecognised duration leaves `endDate = now`. -/
def computeEndDate (selectedDuration : String) (now : JSDate) : JSDate :=
  if selectedDuration = "1w" then jsSetDate now (now.day + 7)
  else if selectedDuration = "2w" then jsSetDate now (now.day + 14)
  else if selectedDuration = "1m" then jsSetMonth now (now.month + 1)
  else if selectedDuration = "6m" then jsSetMonth now (now.month + 6)
  else now

/-- Function `handlePaymentConfirm` up to the insert: look up the pricing tier for
the selected duration (`pricingTiers.find(tier => tier.duration ===
selectedDuration)`), fail with `'Invalid duration selected'` when absent,
otherwise build the `featured_ads` row that is inserted. -/
def handlePaymentConfirm (pricingTiers : List PricingTier)
    (selectedDuration selectedFranchise : String) (now : JSDate) :
    Except String FeaturedAdInsert :=
  match pricingTiers.find? (fun tier => tier.duration == selectedDuration) with
  | none => .error "Invalid duration selected"
  | some selectedTier =>
      .ok { franchise_id := selectedFranchise
            amount := selectedTier.price
            start_date := now
            end_date := computeEndDate selectedDuration now
            status := "pending_payment"
            payment_status := "pending" }

/-- Spec-side comparator for the offset table: "plus `k` calendar months"
in the ECMAScript sense — the month field is advanced by `k` (with year
carry) and a day-of-month that does not exist in the target month
overflows into the following month. -/
def addCalendarMonths (dt : JSDate) (k : Nat) : JSDate :=
  normDate dt.year (dt.month + k) dt.day

/-! ## Franchisor login (`FranchisorLogin.handleSubmit`, src/unnamed/part_001) -/

/-- The `user_type`/`status` columns selected from `profiles` after
sign-in. -/
structure Profile where
  user_type : String
  status : String
deriving Repr, DecidableEq

/-- Observable side effects of the login handler. -/
inductive LoginEffect
  | signIn
  | signOut
  | updateLastLogin
  | navigateToDashboard
deriving Repr, DecidableEq

def pendingLoginMessage : String :=
  "Your account is still awaiting approval. Please check your email for confirmation once your account has been approved."

def rejectedLoginMessage : String :=
  "Your account application has been rejected. Please contact support for more information."

/-- Handler `FranchisorLogin.handleSubmit`, with the two remote reads as oracles:
`signInError` is the result of `signInWithPassword` and `profileResult`
that of the follow-up `profiles` read.  A thrown error is the `.error`
branch (the component catches it and shows `err.message`). -/
def franchisorLoginHandleSubmit (signInError : Option String)
    (profileResult : Except String Profile) :
    List LoginEffect × Except String Unit :=
  match signInError with
  | some e => ([.signIn], .error e)
  | none =>
    match profileResult with
    | .error e => ([.signIn], .error e)
    | .ok profile =>
      if profile.user_type ≠ "franchisor" then
        ([.signIn], .error "Unauthorized access")
      else if profile.status = "pending" then
        ([.signIn, .signOut], .error pendingLoginMessage)
      else if profile.status = "rejected" then
        ([.signIn, .signOut], .error rejectedLoginMessage)
      else
        ([.signIn, .updateLastLogin, .navigateToDashboard], .ok ())

/-! ## Lead viewing (`Leads.tsx`) -/

/-- The `id`/`status` part of `interface Lead` (the other columns play no
role in the status transition). -/
structure Lead where
  id : String
  status : String
deriving Repr, DecidableEq

/-- A remote `franchise_leads` status update issued by `updateLeadStatus`. -/
structure RemoteUpdate where
  leadId : String
  newStatus : String
deriving Repr, DecidableEq

/-- Function `updateLeadStatus`: issue the remote update, then patch local state with
`leads.map(lead => lead.id === leadId ? { ...lead, status: newStatus } : lead)`. -/
def updateLeadStatus (leads : List Lead) (leadId newStatus : String) :
    List RemoteUpdate × List Lead :=
  ([⟨leadId, newStatus⟩],
   leads.map (fun lead =>
     if lead.id == leadId then { lead with status := newStatus } else lead))

/-- Handler `handleViewLead`: open the modal (irrelevant here) and, if the lead is
`new`, mark it `contacted`. -/
def handleViewLead (leads : List Lead) (lead : Lead) :
    List RemoteUpdate × List Lead :=
  if lead.status == "new" then updateLeadStatus leads lead.id "contacted"
  else ([], leads)

/-! ## Franchise create / edit persistence (src/unnamed/part_000 and
src/unnamed/part_001) -/

/-- JavaScript string truthiness: the empty string is the only falsy
string. -/
def truthy (s : String) : Bool := s != ""

/-- The `interface FAQ` of both franchise forms. -/
structure FAQ where
  question : String
  answer : String
deriving Repr, DecidableEq

/-- The `interface Testimonial` of both franchise forms. -/
structure Testimonial where
  authorName : String
  content : String
deriving Repr, DecidableEq

/-- The text columns of `interface SuccessStory` (the optional image only
affects the stored `image_url`, not whether the row is inserted). -/
structure SuccessStory where
  title : String
  content : String
deriving Repr, DecidableEq

/-- The FAQ insert loop of both `AddFranchise.handleSubmit` and
`EditFranchise.handleSubmit`: `for (const faq of faqs) if (faq.question &&
faq.answer) insert(...)`. -/
def submitFaqRows : List FAQ → List FAQ
  | [] => []
  | faq :: rest =>
    if truthy faq.question && truthy faq.answer then faq :: submitFaqRows rest
    else submitFaqRows rest

/-- The testimonial insert loop of both submit handlers:
`if (testimonial.authorName && testimonial.content) insert(...)`. -/
def submitTestimonialRows : List Testimonial → List Testimonial
  | [] => []
  | t :: rest =>
    if truthy t.authorName && truthy t.content then t :: submitTestimonialRows rest
    else submitTestimonialRows rest

/-- The success-story insert loop of both submit handlers:
`if (story.title && story.content) insert(...)`. -/
def submitStoryRows : List SuccessStory → List SuccessStory
  | [] => []
  | st :: rest =>
    if truthy st.title && truthy st.content then st :: submitStoryRows rest
    else submitStoryRows rest

/-- A storage upload performed via `supabase.storage.from('franchise-images')`. -/
inductive StorageEffect
  | upload (file : String)
deriving Repr, DecidableEq

/-- The row upserted into `franchise_details` by `EditFranchise.handleSubmit`
(`investment_amount` is `parseFloat(investmentAmount)`, abstracted as an
integer since only identity of the value matters here). -/
structure FranchiseDetailsUpsert where
  franchise_id : String
  short_description : String
  long_description : String
  investment_amount : Int
  main_image_url : String
deriving Repr, DecidableEq

/-- The main-image step of `EditFranchise.handleSubmit`: `mainImageUrl`
starts as `existingMainImageUrl` and is replaced by the public URL of a
fresh upload only when `mainImageFile` is set.  `publicUrl` abstracts
`getPublicUrl` of the storage bucket. -/
def editMainImage (mainImageFile : Option String) (existingMainImageUrl : String)
    (publicUrl : String → String) : List StorageEffect × String :=
  match mainImageFile with
  | none => ([], existingMainImageUrl)
  | some file => ([.upload file], publicUrl file)

/-- Handler `EditFranchise.handleSubmit` up to the `franchise_details` upsert:
the uploads performed and the row written. -/
def editFranchiseSubmitDetails (id shortDescription longDescription : String)
    (investmentAmount : Int) (mainImageFile : Option String)
    (existingMainImageUrl : String) (publicUrl : String → String) :
    List StorageEffect × FranchiseDetailsUpsert :=
  let step := editMainImage mainImageFile existingMainImageUrl publicUrl
  (step.1,
   { franchise_id := id, short_description := shortDescription,
     long_description := longDescription, investment_amount := investmentAmount,
     main_image_url := step.2 })

/-- Category-selection state of the add/edit forms. -/
structure CategorySelection where
  selectedMainCategory : String
  selectedSubCategories : List String
deriving Repr, DecidableEq

/-- Handler `handleMainCategoryChange` of `EditFranchise` (src/unnamed/part_000):
set the main category and reset the sub-categories. -/
def editHandleMainCategoryChange (s : CategorySelection) (categoryId : String) :
    CategorySelection :=
  { s with selectedMainCategory := categoryId, selectedSubCategories := [] }

/-- Handler `handleMainCategoryChange` of `AddFranchise` (src/unnamed/part_001):
identical to the edit-form handler. -/
def addHandleMainCategoryChange (s : CategorySelection) (categoryId : String) :
    CategorySelection :=
  { s with selectedMainCategory := categoryId, selectedSubCategories := [] }

/-- One row of `franchise_category_mappings`. -/
structure CategoryMapping where
  franchise_id : String
  category_id : String
deriving Repr, DecidableEq

/-- The category step of `EditFranchise.handleSubmit`: delete every mapping
of the franchise, then insert one row per id in
`[selectedMainCategory, ...selectedSubCategories].filter(Boolean)`. -/
def editSaveCategories (table : List CategoryMapping) (id : String)
    (selectedMainCategory : String) (selectedSubCategories : List String) :
    List CategoryMapping :=
  let remaining := table.filter (fun row => !(row.franchise_id == id))
  let categoryIds :=
    (selectedMainCategory :: selectedSubCategories).filter (fun c => truthy c)
  remaining ++ categoryIds.map (fun categoryId => ⟨id, categoryId⟩)

/-! ## Admin approvals (src/unnamed/part_005 and src/unnamed/part_006) -/

/-- A row of `franchises` resp. `profiles` as seen by the approval
handlers: the flipped columns plus `rest`, which stands for every other
column of the row. -/
structure ApprovalRow where
  id : String
  status : String
  approved_at : Option String
  rest : String
deriving Repr, DecidableEq

/-- Handler `handleApproval` of the franchise-approvals page (src/unnamed/part_005):
`update({ status: approved ? 'approved' : 'rejected', approved_at:
approved ? new Date().toISOString() : null }).eq('id', franchiseId)`. -/
def franchiseHandleApproval (table : List ApprovalRow) (franchiseId : String)
    (approved : Bool) (now : String) : List ApprovalRow :=
  table.map (fun row =>
    if row.id == franchiseId then
      { row with status := if approved then "approved" else "rejected",
                 approved_at := if approved then some now else none }
    else row)

/-- Handler `handleApproval` of the account-approvals page (src/unnamed/part_006):
the same single `update` applied to `profiles`. -/
def accountHandleApproval (table : List ApprovalRow) (accountId : String)
    (approved : Bool) (now : String) : List ApprovalRow :=
  table.map (fun row =>
    if row.id == accountId then
      { row with status := if approved then "approved" else "rejected",
                 approved_at := if approved then some now else none }
    else row)


/-! ## Theorems -/

theorem daysInMonth_pos (y m : Nat) : 0 < daysInMonth y m := by
  unfold daysInMonth
  split <;> first
    | decide
    | (split <;> decide)

theorem monthPrefix_year (y : Nat) : monthPrefix y 12 = daysInYear y := by
  show monthPrefix y 11 + daysInMonth y 11 = daysInYear y
  show monthPrefix y 10 + daysInMonth y 10 + daysInMonth y 11 = daysInYear y
  cases h : isLeap y <;>
    simp [monthPrefix, daysInMonth, daysInYear, h]

theorem normDate_roll (y d : Nat) : normDate y 12 d = normDate (y + 1) 0 d := by
  rw [normDate.eq_def, normDate.eq_def]

/-- Master lemma: starting from an in-range month and a day `≥ 1`,
normalisation produces a valid date whose absolute day number is the
"virtual" day number of the unnormalised triple. -/
theorem normDate_spec (d : Nat) (hd : 1 ≤ d) : ∀ y m, m < 12 →
    validDate (normDate y m d) ∧
    toDays (normDate y m d) = daysUpToYear y + monthPrefix y m + (d - 1) := by
  induction d using Nat.strong_induction_on with
  | _ d ih =>
    intro y m hm
    rw [normDate.eq_def]
    simp only [Nat.div_eq_of_lt hm, Nat.mod_eq_of_lt hm, Nat.add_zero]
    split
    · constructor
      · exact ⟨hm, hd, by assumption⟩
      · rfl
    · rename_i hgt
      push_neg at hgt
      have hpos := daysInMonth_pos y m
      have hd' : 1 ≤ d - daysInMonth y m := by omega
      have hlt : d - daysInMonth y m < d := by omega
      by_cases hm' : m + 1 < 12
      · obtain ⟨hv, he⟩ := ih _ hlt hd' y (m + 1) hm'
        refine ⟨hv, ?_⟩
        rw [he]
        have : monthPrefix y (m + 1) = monthPrefix y m + daysInMonth y m := rfl
        rw [this]
        omega
      · have hm11 : m = 11 := by omega
        subst hm11
        rw [normDate_roll]
        obtain ⟨hv, he⟩ := ih _ hlt hd' (y + 1) 0 (by omega)
        refine ⟨hv, ?_⟩
        rw [he]
        have h1 : daysUpToYear (y + 1) = daysUpToYear y + daysInYear y := rfl
        have h2 : monthPrefix y 12 = daysInYear y := monthPrefix_year y
        have h3 : monthPrefix y 12 = monthPrefix y 11 + daysInMonth y 11 := rfl
        have h4 : monthPrefix (y + 1) 0 = 0 := rfl
        omega

/-- C1: For every featured-ad purchase whose selected duration is one of
'1w', '2w', '1m', '6m' and whose insert row was produced by
`handlePaymentConfirm`, the end date equals the start date plus the fixed
offset for that duration: '1w' adds 7 days, '2w' adds 14 days, '1m' adds
1 calendar month, '6m' adds 6 calendar months. -/
theorem featuredAd_endDate_offsets (tiers : List PricingTier)
    (dur fr : String) (now : JSDate) (row : FeaturedAdInsert)
    (hv : validDate now)
    (hrow : handlePaymentConfirm tiers dur fr now = Except.ok row) :
    (dur = "1w" → toDays row.end_date = toDays row.start_date + 7) ∧
    (dur = "2w" → toDays row.end_date = toDays row.start_date + 14) ∧
    (dur = "1m" → row.end_date = addCalendarMonths row.start_date 1) ∧
    (dur = "6m" → row.end_date = addCalendarMonths row.start_date 6) := by
  obtain ⟨hm, hd1, hd2⟩ := hv
  unfold handlePaymentConfirm at hrow
  rcases hfind : tiers.find? (fun tier => tier.duration == dur) with _ | tier <;>
    rw [hfind] at hrow
  · exact absurd hrow (by simp)
  · have hrw : row = { franchise_id := fr, amount := tier.price,
                         start_date := now, end_date := computeEndDate dur now,
                         status := "pending_payment",
                         payment_status := "pending" } := by
      exact (Except.ok.injEq _ _).mp hrow.symm
    subst hrw
    refine ⟨fun h => ?_, fun h => ?_, fun h => ?_, fun h => ?_⟩ <;> subst h
    · show toDays (computeEndDate "1w" now) = toDays now + 7
      have h7 := (normDate_spec (now.day + 7) (by omega) now.year now.month hm).2
      show toDays (normDate now.year now.month (now.day + 7)) = toDays now + 7
      rw [h7]; unfold toDays; omega
    · show toDays (computeEndDate "2w" now) = toDays now + 14
      have h14 := (normDate_spec (now.day + 14) (by omega) now.year now.month hm).2
      show toDays (normDate now.year now.month (now.day + 14)) = toDays now + 14
      rw [h14]; unfold toDays; omega
    · rfl
    · rfl

theorem featuredAd_endDate_offsets_witness :
    validDate ⟨2023, 0, 25⟩ ∧
    handlePaymentConfirm [⟨"1w", 4999⟩] "1w" "fr1" ⟨2023, 0, 25⟩ =
      Except.ok { franchise_id := "fr1", amount := 4999,
                  start_date := ⟨2023, 0, 25⟩,
                  end_date := computeEndDate "1w" ⟨2023, 0, 25⟩,
                  status := "pending_payment",
                  payment_status := "pending" } ∧
    (("1w" : String) = "1w" →
      toDays (computeEndDate "1w" ⟨2023, 0, 25⟩) = toDays (⟨2023, 0, 25⟩ : JSDate) + 7) :=
  ⟨by decide, by rfl,
   (featuredAd_endDate_offsets [⟨"1w", 4999⟩] "1w" "fr1" ⟨2023, 0, 25⟩ _
      (by decide) (by rfl)).1⟩

/-- C8: `handlePaymentConfirm` with a duration that has a matching pricing
tier builds an insert row with status 'pending_payment', payment_status
'pending', amount the matching tier's price and start_date the creation
time; with no matching tier it fails with 'Invalid duration selected' and
produces no row. -/
theorem handlePaymentConfirm_insert_spec (tiers : List PricingTier)
    (dur fr : String) (now : JSDate) :
    (∀ tier, tiers.find? (fun t => t.duration == dur) = some tier →
      ∃ row, handlePaymentConfirm tiers dur fr now = Except.ok row ∧
        row.status = "pending_payment" ∧ row.payment_status = "pending" ∧
        row.amount = tier.price ∧ row.start_date = now) ∧
    (tiers.find? (fun t => t.duration == dur) = none →
      handlePaymentConfirm tiers dur fr now = Except.error "Invalid duration selected") := by
  constructor
  · intro tier hfind
    unfold handlePaymentConfirm
    rw [hfind]
    exact ⟨_, rfl, rfl, rfl, rfl, rfl⟩
  · intro hfind
    unfold handlePaymentConfirm
    rw [hfind]

theorem handlePaymentConfirm_insert_spec_witness :
    (([⟨"1m", 9999⟩] : List PricingTier).find? (fun t => t.duration == "1m") =
        some ⟨"1m", 9999⟩) ∧
    (∃ row, handlePaymentConfirm [⟨"1m", 9999⟩] "1m" "fr1" ⟨2023, 5, 15⟩ = Except.ok row ∧
      row.status = "pending_payment" ∧ row.payment_status = "pending" ∧
      row.amount = (9999 : Int) ∧ row.start_date = ⟨2023, 5, 15⟩) ∧
    (([] : List PricingTier).find? (fun t => t.duration == "1m") = none) ∧
    handlePaymentConfirm [] "1m" "fr1" ⟨2023, 5, 15⟩ = Except.error "Invalid duration selected" :=
  ⟨by rfl,
   (handlePaymentConfirm_insert_spec [⟨"1m", 9999⟩] "1m" "fr1" ⟨2023, 5, 15⟩).1
     ⟨"1m", 9999⟩ (by rfl),
   by rfl,
   (handlePaymentConfirm_insert_spec [] "1m" "fr1" ⟨2023, 5, 15⟩).2 (by rfl)⟩

/-- C10: a duration with a matching pricing tier that is none of '1w',
'2w', '1m', '6m' falls through the `switch` (which has no `default`
branch), so the inserted row is zero-length: its end date equals its start
date `now`, still with status 'pending_payment'. -/
theorem featuredAd_unknown_duration_zero_length (tiers : List PricingTier)
    (dur fr : String) (now : JSDate) (tier : PricingTier)
    (hfind : tiers.find? (fun t => t.duration == dur) = some tier)
    (h1 : dur ≠ "1w") (h2 : dur ≠ "2w") (h3 : dur ≠ "1m") (h4 : dur ≠ "6m") :
    handlePaymentConfirm tiers dur fr now =
      Except.ok { franchise_id := fr, amount := tier.price, start_date := now,
                  end_date := now, status := "pending_payment",
                  payment_status := "pending" } := by
  unfold handlePaymentConfirm
  rw [hfind]
  unfold computeEndDate
  simp [h1, h2, h3, h4]

theorem featuredAd_unknown_duration_zero_length_witness :
    (([⟨"3d", 50⟩] : List PricingTier).find? (fun t => t.duration == "3d") =
        some ⟨"3d", 50⟩) ∧
    ("3d" : String) ≠ "1w" ∧ ("3d" : String) ≠ "2w" ∧
    ("3d" : String) ≠ "1m" ∧ ("3d" : String) ≠ "6m" ∧
    handlePaymentConfirm [⟨"3d", 50⟩] "3d" "fr1" ⟨2024, 1, 29⟩ =
      Except.ok { franchise_id := "fr1", amount := 50, start_date := ⟨2024, 1, 29⟩,
                  end_date := ⟨2024, 1, 29⟩, status := "pending_payment",
                  payment_status := "pending" } :=
  ⟨by rfl, by decide, by decide, by decide, by decide,
   featuredAd_unknown_duration_zero_length [⟨"3d", 50⟩] "3d" "fr1" ⟨2024, 1, 29⟩
     ⟨"3d", 50⟩ (by rfl) (by decide) (by decide) (by decide) (by decide)⟩

/-- C2: a franchisor whose sign-in succeeds but whose profile status is
'pending' or 'rejected' is signed out and shown an error whose message is
distinct per status; the handler never navigates to the dashboard. -/
theorem franchisor_login_pending_rejected_signed_out (profile : Profile)
    (hty : profile.user_type = "franchisor")
    (hst : profile.status = "pending" ∨ profile.status = "rejected") :
    (franchisorLoginHandleSubmit none (Except.ok profile)).1 =
      [LoginEffect.signIn, LoginEffect.signOut] ∧
    LoginEffect.navigateToDashboard ∉ (franchisorLoginHandleSubmit none (Except.ok profile)).1 ∧
    (franchisorLoginHandleSubmit none (Except.ok profile)).2 =
      Except.error
        (if profile.status = "pending" then pendingLoginMessage else rejectedLoginMessage) ∧
    pendingLoginMessage ≠ rejectedLoginMessage := by
  have hmsg : pendingLoginMessage ≠ rejectedLoginMessage := by decide
  rcases hst with hst | hst <;>
    simp [franchisorLoginHandleSubmit, hty, hst, hmsg]

theorem franchisor_login_pending_rejected_signed_out_witness :
    (⟨"franchisor", "pending"⟩ : Profile).user_type = "franchisor" ∧
    ((⟨"franchisor", "pending"⟩ : Profile).status = "pending" ∨
      (⟨"franchisor", "pending"⟩ : Profile).status = "rejected") ∧
    (franchisorLoginHandleSubmit none (Except.ok ⟨"franchisor", "pending"⟩)).1 =
      [LoginEffect.signIn, LoginEffect.signOut] :=
  ⟨rfl, Or.inl rfl,
   (franchisor_login_pending_rejected_signed_out ⟨"franchisor", "pending"⟩ rfl
      (Or.inl rfl)).1⟩

/-- C3: viewing a lead transitions 'new' to 'contacted' exactly once: a
view of a 'new' lead issues the one remote update and patches the local
state, a view of a non-'new' lead changes nothing, and after the first
view any repeated view of that lead issues no further update. -/
theorem handleViewLead_contacted_once (leads : List Lead) (lead : Lead) :
    (lead.status = "new" →
      (handleViewLead leads lead).1 = [⟨lead.id, "contacted"⟩] ∧
      (∀ l ∈ (handleViewLead leads lead).2, l.id = lead.id → l.status = "contacted") ∧
      (∀ l ∈ (handleViewLead leads lead).2, l.id = lead.id →
        (handleViewLead (handleViewLead leads lead).2 l).1 = [] ∧
        (handleViewLead (handleViewLead leads lead).2 l).2 =
          (handleViewLead leads lead).2)) ∧
    (lead.status ≠ "new" →
      (handleViewLead leads lead).1 = [] ∧ (handleViewLead leads lead).2 = leads) := by
  constructor
  · intro hnew
    have hshape : handleViewLead leads lead = updateLeadStatus leads lead.id "contacted" := by
      simp [handleViewLead, hnew]
    have hup : ∀ l ∈ (handleViewLead leads lead).2, l.id = lead.id →
        l.status = "contacted" := by
      intro l hl hid
      rw [hshape] at hl
      simp only [updateLeadStatus] at hl
      obtain ⟨a, _, ha⟩ := List.mem_map.mp hl
      by_cases hba : a.id = lead.id
      · rw [if_pos (by simp [hba])] at ha
        rw [← ha]
      · rw [if_neg (by simp [hba])] at ha
        exact absurd (ha ▸ hid) hba
    refine ⟨by rw [hshape]; rfl, hup, ?_⟩
    intro l hl hid
    have : l.status = "contacted" := hup l hl hid
    simp [handleViewLead, this]
  · intro hnot
    simp [handleViewLead, hnot]

theorem handleViewLead_contacted_once_witness :
    (⟨"l1", "new"⟩ : Lead).status = "new" ∧
    (handleViewLead [⟨"l1", "new"⟩] ⟨"l1", "new"⟩).1 = [⟨"l1", "contacted"⟩] :=
  ⟨rfl, ((handleViewLead_contacted_once [⟨"l1", "new"⟩] ⟨"l1", "new"⟩).1 rfl).1⟩

/-- C4: on franchise save, exactly the fully-populated child entries
persist: a FAQ iff question and answer are both non-empty, a testimonial
iff author name and content are both non-empty, a success story iff title
and content are both non-empty. -/
theorem franchise_children_persist_iff (faqs : List FAQ)
    (ts : List Testimonial) (ss : List SuccessStory) :
    (∀ faq, faq ∈ submitFaqRows faqs ↔
      faq ∈ faqs ∧ faq.question ≠ "" ∧ faq.answer ≠ "") ∧
    (∀ t, t ∈ submitTestimonialRows ts ↔
      t ∈ ts ∧ t.authorName ≠ "" ∧ t.content ≠ "") ∧
    (∀ st, st ∈ submitStoryRows ss ↔
      st ∈ ss ∧ st.title ≠ "" ∧ st.content ≠ "") := by
  refine ⟨fun faq => ?_, fun t => ?_, fun st => ?_⟩
  · induction faqs with
    | nil => simp [submitFaqRows]
    | cons f rest ih =>
      rw [submitFaqRows]
      by_cases h : truthy f.question && truthy f.answer
      · rw [if_pos h]
        have h' : f.question ≠ "" ∧ f.answer ≠ "" := by
          simpa [truthy] using h
        simp only [List.mem_cons, ih]
        constructor
        · rintro (rfl | ⟨hm, hq, ha⟩)
          · exact ⟨Or.inl rfl, h'.1, h'.2⟩
          · exact ⟨Or.inr hm, hq, ha⟩
        · rintro ⟨rfl | hm, hq, ha⟩
          · exact Or.inl rfl
          · exact Or.inr ⟨hm, hq, ha⟩
      · rw [if_neg h]
        have h' : ¬(f.question ≠ "" ∧ f.answer ≠ "") := by
          simpa [truthy] using h
        rw [ih]
        simp only [List.mem_cons]
        constructor
        · rintro ⟨hm, hq, ha⟩
          exact ⟨Or.inr hm, hq, ha⟩
        · rintro ⟨rfl | hm, hq, ha⟩
          · exact absurd ⟨hq, ha⟩ h'
          · exact ⟨hm, hq, ha⟩
  · induction ts with
    | nil => simp [submitTestimonialRows]
    | cons f rest ih =>
      rw [submitTestimonialRows]
      by_cases h : truthy f.authorName && truthy f.content
      · rw [if_pos h]
        have h' : f.authorName ≠ "" ∧ f.content ≠ "" := by
          simpa [truthy] using h
        simp only [List.mem_cons, ih]
        constructor
        · rintro (rfl | ⟨hm, hq, ha⟩)
          · exact ⟨Or.inl rfl, h'.1, h'.2⟩
          · exact ⟨Or.inr hm, hq, ha⟩
        · rintro ⟨rfl | hm, hq, ha⟩
          · exact Or.inl rfl
          · exact Or.inr ⟨hm, hq, ha⟩
      · rw [if_neg h]
        have h' : ¬(f.authorName ≠ "" ∧ f.content ≠ "") := by
          simpa [truthy] using h
        rw [ih]
        simp only [List.mem_cons]
        constructor
        · rintro ⟨hm, hq, ha⟩
          exact ⟨Or.inr hm, hq, ha⟩
        · rintro ⟨rfl | hm, hq, ha⟩
          · exact absurd ⟨hq, ha⟩ h'
          · exact ⟨hm, hq, ha⟩
  · induction ss with
    | nil => simp [submitStoryRows]
    | cons f rest ih =>
      rw [submitStoryRows]
      by_cases h : truthy f.title && truthy f.content
      · rw [if_pos h]
        have h' : f.title ≠ "" ∧ f.content ≠ "" := by
          simpa [truthy] using h
        simp only [List.mem_cons, ih]
        constructor
        · rintro (rfl | ⟨hm, hq, ha⟩)
          · exact ⟨Or.inl rfl, h'.1, h'.2⟩
          · exact ⟨Or.inr hm, hq, ha⟩
        · rintro ⟨rfl | hm, hq, ha⟩
          · exact Or.inl rfl
          · exact Or.inr ⟨hm, hq, ha⟩
      · rw [if_neg h]
        have h' : ¬(f.title ≠ "" ∧ f.content ≠ "") := by
          simpa [truthy] using h
        rw [ih]
        simp only [List.mem_cons]
        constructor
        · rintro ⟨hm, hq, ha⟩
          exact ⟨Or.inr hm, hq, ha⟩
        · rintro ⟨rfl | hm, hq, ha⟩
          · exact absurd ⟨hq, ha⟩ h'
          · exact ⟨hm, hq, ha⟩

/-- C5: an edit submitted with no new main image performs no storage
upload and writes the previously fetched image URL unchanged into the
`franchise_details` upsert. -/
theorem edit_unchanged_image_no_reupload (id sd ld : String) (inv : Int)
    (existing : String) (publicUrl : String → String) :
    (editFranchiseSubmitDetails id sd ld inv none existing publicUrl).1 = [] ∧
    (editFranchiseSubmitDetails id sd ld inv none existing publicUrl).2.main_image_url =
      existing :=
  ⟨rfl, rfl⟩

/-- C6: changing the main category sets it to the new value and resets the
selected sub-categories to the empty list, in both the edit and the
create flow. -/
theorem mainCategoryChange_resets_subs (s : CategorySelection) (categoryId : String) :
    editHandleMainCategoryChange s categoryId =
      { selectedMainCategory := categoryId, selectedSubCategories := [] } ∧
    addHandleMainCategoryChange s categoryId =
      { selectedMainCategory := categoryId, selectedSubCategories := [] } :=
  ⟨rfl, rfl⟩

theorem map_categoryId_map (id : String) (l : List String) :
    (l.map (fun categoryId => (⟨id, categoryId⟩ : CategoryMapping))).map
      (fun r => r.category_id) = l := by
  induction l with
  | nil => rfl
  | cons c rest ih => simp [ih]

/-- C7: the edit-save category step is destructive and flattening: after
it, the mappings of the franchise are exactly one row per non-empty id in
main-category-then-sub-categories order, and the rows of every other
franchise are untouched. -/
theorem edit_categories_destructive_flatten (table : List CategoryMapping)
    (id main : String) (subs : List String) :
    ((editSaveCategories table id main subs).filter
        (fun r => r.franchise_id == id)).map (fun r => r.category_id) =
      (main :: subs).filter (fun c => c ≠ "") ∧
    (editSaveCategories table id main subs).filter
        (fun r => !(r.franchise_id == id)) =
      table.filter (fun r => !(r.franchise_id == id)) := by
  have hids : (main :: subs).filter (fun c => truthy c) =
      (main :: subs).filter (fun c => c ≠ "") := by
    apply List.filter_congr
    intro c _
    simp [truthy, bne, beq_eq_decide, decide_not]
  constructor
  · rw [editSaveCategories, List.filter_append]
    have h1 : (table.filter fun row => !(row.franchise_id == id)).filter
        (fun r => r.franchise_id == id) = [] := by
      rw [List.filter_filter]
      apply List.filter_eq_nil_iff.mpr
      intro a _
      simp
    have h2 : (((main :: subs).filter (fun c => truthy c)).map
          (fun categoryId => (⟨id, categoryId⟩ : CategoryMapping))).filter
        (fun r => r.franchise_id == id) =
        ((main :: subs).filter (fun c => truthy c)).map
          (fun categoryId => (⟨id, categoryId⟩ : CategoryMapping)) := by
      apply List.filter_eq_self.mpr
      intro a ha
      obtain ⟨c, _, hc⟩ := List.mem_map.mp ha
      rw [← hc]
      simp
    rw [h1, h2, List.nil_append, map_categoryId_map]
    exact hids
  · rw [editSaveCategories, List.filter_append]
    have h1 : (table.filter fun row => !(row.franchise_id == id)).filter
        (fun r => !(r.franchise_id == id)) =
        table.filter (fun r => !(r.franchise_id == id)) := by
      rw [List.filter_filter]
      apply List.filter_congr
      intro a _
      simp
    have h2 : (((main :: subs).filter (fun c => truthy c)).map
          (fun categoryId => (⟨id, categoryId⟩ : CategoryMapping))).filter
        (fun r => !(r.franchise_id == id)) = [] := by
      apply List.filter_eq_nil_iff.mpr
      intro a ha
      obtain ⟨c, _, hc⟩ := List.mem_map.mp ha
      rw [← hc]
      simp
    rw [h1, h2, List.append_nil]

/-- C9: an admin approval action is a single-row status flip: in both the
franchise and the account handler the targeted pending row gets status
'approved' with `approved_at = now` (resp. 'rejected' with `approved_at`
cleared), every other column of the row (`rest`) survives inside the
record update, and every non-targeted row is written back unchanged. -/
theorem admin_approval_single_row_flip (table : List ApprovalRow)
    (targetId now : String) (approved : Bool) (row : ApprovalRow)
    (hrow : row ∈ table) (_hpend : row.status = "pending") :
    (row.id = targetId →
      ({ row with status := if approved then "approved" else "rejected",
                  approved_at := if approved then some now else none } : ApprovalRow) ∈
          franchiseHandleApproval table targetId approved now ∧
      ({ row with status := if approved then "approved" else "rejected",
                  approved_at := if approved then some now else none } : ApprovalRow) ∈
          accountHandleApproval table targetId approved now) ∧
    (row.id ≠ targetId →
      row ∈ franchiseHandleApproval table targetId approved now ∧
      row ∈ accountHandleApproval table targetId approved now) := by
  constructor
  · intro hid
    constructor
    · exact List.mem_map.mpr ⟨row, hrow, by rw [if_pos (by simp [hid])]⟩
    · exact List.mem_map.mpr ⟨row, hrow, by rw [if_pos (by simp [hid])]⟩
  · intro hid
    constructor
    · exact List.mem_map.mpr ⟨row, hrow, by rw [if_neg (by simp [hid])]⟩
    · exact List.mem_map.mpr ⟨row, hrow, by rw [if_neg (by simp [hid])]⟩

theorem admin_approval_single_row_flip_witness :
    (⟨"a", "pending", none, "other"⟩ : ApprovalRow) ∈
      ([⟨"a", "pending", none, "other"⟩] : List ApprovalRow) ∧
    (⟨"a", "pending", none, "other"⟩ : ApprovalRow).status = "pending" ∧
    (⟨"a", "pending", none, "other"⟩ : ApprovalRow).id = "a" ∧
    (⟨"a", "approved", some "2025-01-01", "other"⟩ : ApprovalRow) ∈
      franchiseHandleApproval [⟨"a", "pending", none, "other"⟩] "a" true "2025-01-01" :=
  ⟨List.mem_singleton.mpr rfl, rfl, rfl,
   ((admin_approval_single_row_flip [⟨"a", "pending", none, "other"⟩] "a" "2025-01-01"
      true ⟨"a", "pending", none, "other"⟩ (List.mem_singleton.mpr rfl) rfl).1 rfl).1⟩

end FranchiseApp
